import Mathlib

/-!
Verification of the saimiris measurement agent against its specification.

This file shallowly embeds the agent runtime of the repository
(`src/probe.rs`, `src/config/mod.rs`, `src/agent/handler.rs`,
`src/agent/sender.rs`, `src/agent/receiver.rs`, `src/agent/producer.rs`,
`src/agent/gateway.rs`) as executable Lean definitions, and settles the
claims of the specification as theorems about those definitions.

Modelling conventions:
- Rust machine integers are modelled as `Nat`; the embedded code never
  overflows the modelled quantities, and where a field is a `u8`, `u16`
  or `u64` the Lean value carries the same (already in-range) number.
- Fallible Rust functions returning `anyhow::Result` are modelled as
  `Except String`.
- Textual parsing done by external library code (`std` IP address
  parsing, `ipnet` prefix parsing) is passed in as an explicit function
  parameter, so theorems quantify over every possible parser behaviour,
  and concrete instantiations are used for witnesses.
- `HashMap` values owned by a single loop are modelled as association
  lists with first-match lookup semantics.
-/

namespace Saimiris

/-! ## Basic data model: IP addresses, probes (caracat models) -/

/-- An IP address, `std::net::IpAddr`: either four `u8` octets (v4) or a
list of sixteen `u8` octets (v6, in network order). -/
inductive IpAddr where
  | v4 (a b c d : Nat)
  | v6 (octets : List Nat)
deriving DecidableEq

/-- `caracat::models::L4`: the probe protocols supported by the codec. -/
inductive L4 where
  | udp
  | icmp
  | icmpv6
deriving DecidableEq

/-- `caracat::models::Probe`. -/
structure Probe where
  dst_addr : IpAddr
  src_port : Nat
  dst_port : Nat
  ttl : Nat
  protocol : L4
deriving DecidableEq

/-! ## Probe codec (`src/probe.rs`)

The repository serializes each probe as one capnp message
(`schemas/probe.capnp`, compiled by `build.rs`); the schema file and the
capnp library are not under `src/`, so the framing layer is modelled from
the spec: the payload is a sequence of framed records, each carrying the
16 destination bytes, the two 16-bit ports, the 8-bit TTL and a protocol
tag (UDP, ICMP, ICMPv6; TCP reserved and rejected on decode).  The field
conversions around that frame are embedded from `src/probe.rs`. -/

/-- The protocol tag of the wire schema (`probe.capnp` enum), which also
has the reserved `tcp` tag. -/
inductive WireProtocol where
  | udp
  | icmp
  | icmpv6
  | tcp
deriving DecidableEq

/-- Modelled from the spec: one framed probe record of the wire schema
(the capnp message built by `serialize_probe` and read back by
`deserialize_probes`). -/
structure ProbeWire where
  dstAddr : List Nat
  srcPort : Nat
  dstPort : Nat
  ttl : Nat
  protocol : WireProtocol
deriving DecidableEq

/-- `serialize_ip_addr` (`src/probe.rs`): a v4 address is stored as its
v4-mapped v6 form (`Ipv4Addr::to_ipv6_mapped`), a v6 address as its
sixteen octets. -/
def serialize_ip_addr : IpAddr → List Nat
  | .v4 a b c d => [0, 0, 0, 0, 0, 0, 0, 0, 0, 0, 255, 255, a, b, c, d]
  | .v6 octets => octets

/-- `serialize_protocol` (`src/probe.rs`). -/
def serialize_protocol : L4 → WireProtocol
  | .udp => .udp
  | .icmp => .icmp
  | .icmpv6 => .icmpv6

/-- `serialize_probe` (`src/probe.rs`): build the wire record for one
probe. -/
def serialize_probe (p : Probe) : ProbeWire :=
  { dstAddr := serialize_ip_addr p.dst_addr
    srcPort := p.src_port
    dstPort := p.dst_port
    ttl := p.ttl
    protocol := serialize_protocol p.protocol }

/-- `Ipv6Addr::to_ipv4_mapped` on sixteen octets: `some` exactly when the
first ten octets are zero and the next two are `0xff`. -/
def toIpv4Mapped : List Nat → Option (Nat × Nat × Nat × Nat)
  | [a0, a1, a2, a3, a4, a5, a6, a7, a8, a9, a10, a11, a, b, c, d] =>
    if a0 == 0 && a1 == 0 && a2 == 0 && a3 == 0 && a4 == 0 && a5 == 0 &&
       a6 == 0 && a7 == 0 && a8 == 0 && a9 == 0 && a10 == 255 && a11 == 255 then
      some (a, b, c, d)
    else
      none
  | _ => none

/-- `deserialize_ip_addr` (`src/probe.rs`): sixteen bytes are required;
a v4-mapped address is returned as the v4 address, anything else as v6. -/
def deserialize_ip_addr (data : List Nat) : Except String IpAddr :=
  if data.length = 16 then
    match toIpv4Mapped data with
    | some (a, b, c, d) => .ok (.v4 a b c d)
    | none => .ok (.v6 data)
  else
    .error "Invalid IP address byte length: expected 16"

/-- `deserialize_protocol` (`src/probe.rs`): the reserved TCP tag is
rejected. -/
def deserialize_protocol : WireProtocol → Except String L4
  | .udp => .ok .udp
  | .icmp => .ok .icmp
  | .icmpv6 => .ok .icmpv6
  | .tcp => .error "TCP protocol not currently supported by caracat model used here"

/-- `deserialize_single_probe_from_reader` (`src/probe.rs`). -/
def deserialize_single_probe (w : ProbeWire) : Except String Probe :=
  match deserialize_ip_addr w.dstAddr with
  | .error e => .error e
  | .ok dst =>
    match deserialize_protocol w.protocol with
    | .error e => .error e
    | .ok proto =>
      .ok { dst_addr := dst
            src_port := w.srcPort
            dst_port := w.dstPort
            ttl := w.ttl
            protocol := proto }

/-- `deserialize_probes` (`src/probe.rs`): read framed records in
sequence until the end of the payload; fail on the first malformed
record. -/
def deserialize_probes : List ProbeWire → Except String (List Probe)
  | [] => .ok []
  | w :: rest =>
    match deserialize_single_probe w with
    | .ok p =>
      match deserialize_probes rest with
      | .ok ps => .ok (p :: ps)
      | .error e => .error e
    | .error e => .error e

/-- The destinations for which the codec is lossless: every v4 address,
and every sixteen-octet v6 address that is not in the v4-mapped range. -/
def RoundTrippableAddr : IpAddr → Prop
  | .v4 _ _ _ _ => True
  | .v6 octets => octets.length = 16 ∧ toIpv4Mapped octets = none

/-! ## Configuration (`src/config/mod.rs`) -/

/-- A parsed IPv4 network (`ipnet::Ipv4Net`): address value below `2^32`
and a mask length at most 32. -/
structure Ipv4Net where
  addr : Nat
  len : Nat
deriving DecidableEq

/-- `Ipv4Net::contains`: the ip agrees with the network address on the
top `len` bits. -/
def Ipv4Net.containsIp (net : Ipv4Net) (ip : Nat) : Bool :=
  ip >>> (32 - net.len) == net.addr >>> (32 - net.len)

/-- A parsed IPv6 network (`ipnet::Ipv6Net`): address value below `2^128`
and a mask length at most 128. -/
structure Ipv6Net where
  addr : Nat
  len : Nat
deriving DecidableEq

/-- `Ipv6Net::contains`. -/
def Ipv6Net.containsIp (net : Ipv6Net) (ip : Nat) : Bool :=
  ip >>> (128 - net.len) == net.addr >>> (128 - net.len)

/-- The result of parsing an IP address string (`IpAddr::from_str`):
the numeric value of a v4 or v6 address. -/
inductive ParsedIp where
  | v4 (ip : Nat)
  | v6 (ip : Nat)
deriving DecidableEq

/-- The external parsers used by the config code, passed explicitly:
`parseIp` is `str::parse::<IpAddr>`, `parseV4Net` and `parseV6Net` are
`str::parse` for `ipnet` networks; `none` models a parse failure. -/
structure IpParsers where
  parseIp : String → Option ParsedIp
  parseV4Net : String → Option Ipv4Net
  parseV6Net : String → Option Ipv6Net

/-- `validate_ip_against_prefixes` (`src/config/mod.rs`): parse the
address, then check it against the matching-family configured prefix;
an address of a family with no configured prefix is rejected. -/
def validate_ip_against_prefixes (P : IpParsers) (ip_str : String)
    (ipv4_pfx ipv6_pfx : Option String) : Except String Unit :=
  match P.parseIp ip_str with
  | none => .error "Invalid IP address format"
  | some (.v4 ipv4) =>
    match ipv4_pfx with
    | some pfx_str =>
      match P.parseV4Net pfx_str with
      | none => .error "Invalid IPv4 prefix format"
      | some pfx =>
        if !pfx.containsIp ipv4 then
          .error "IPv4 address is not within the allowed prefix"
        else
          .ok ()
    | none => .error "IPv4 address provided but no IPv4 prefix configured for agent"
  | some (.v6 ipv6) =>
    match ipv6_pfx with
    | some pfx_str =>
      match P.parseV6Net pfx_str with
      | none => .error "Invalid IPv6 prefix format"
      | some pfx =>
        if !pfx.containsIp ipv6 then
          .error "IPv6 address is not within the allowed prefix"
        else
          .ok ()
    | none => .error "IPv6 address provided but no IPv6 prefix configured for agent"

/-- `CaracatConfig` (`src/config/mod.rs`): the per-instance parameters.
The prefix fields keep the source's optional prefix strings; the field
names `src_ipv4_pfx` and `src_ipv6_pfx` abbreviate the source names. -/
structure CaracatConfig where
  batch_size : Nat
  instance_id : Nat
  dry_run : Bool
  min_ttl : Option Nat
  max_ttl : Option Nat
  integrity_check : Bool
  interface : String
  src_ipv4_pfx : Option String
  src_ipv6_pfx : Option String
  packets : Nat
  probing_rate : Nat
  rate_limiting_method : String
deriving DecidableEq

/-- `CaracatConfig::default()` (derived `Default`): numeric fields zero,
options `None`, strings empty, booleans false. -/
def CaracatConfig.defaultCfg : CaracatConfig :=
  { batch_size := 0
    instance_id := 0
    dry_run := false
    min_ttl := none
    max_ttl := none
    integrity_check := false
    interface := ""
    src_ipv4_pfx := none
    src_ipv6_pfx := none
    packets := 0
    probing_rate := 0
    rate_limiting_method := "" }

/-- The per-config normalization loop of `app_config`
(`src/config/mod.rs`): zero or empty fields are replaced by the
defaults.  `defIface` stands for `caracat::utilities::get_default_interface()`,
which is host-dependent. -/
def normalizeCaracat (defIface : String) (cfg : CaracatConfig) : CaracatConfig :=
  { cfg with
    batch_size := if cfg.batch_size = 0 then 100 else cfg.batch_size
    instance_id := if cfg.instance_id = 0 then 0 else cfg.instance_id
    interface := if cfg.interface = "" then defIface else cfg.interface
    packets := if cfg.packets = 0 then 1 else cfg.packets
    probing_rate := if cfg.probing_rate = 0 then 100 else cfg.probing_rate
    rate_limiting_method :=
      if cfg.rate_limiting_method = "" then "auto" else cfg.rate_limiting_method }

/-- The caracat-list processing of `app_config` (`src/config/mod.rs`):
an empty configured list is replaced by one default instance, then every
config is normalized. -/
def appConfigCaracat (defIface : String) (raw : List CaracatConfig) : List CaracatConfig :=
  (if raw.isEmpty then [CaracatConfig.defaultCfg] else raw).map (normalizeCaracat defIface)

/-- The startup guard of `agent::handle` (`src/agent/handler.rs`,
lines 108-112): bail out when the caracat list is empty. -/
def handleCaracatCheck (caracat : List CaracatConfig) : Except String Unit :=
  if caracat.isEmpty then
    .error "No Caracat configurations found. At least one Caracat instance must be configured."
  else
    .ok ()

/-- The agent startup path for the instance list: `app_config` followed
by the `handle` guard, yielding the instance list the agent runs with. -/
def agentStartupCaracat (defIface : String) (raw : List CaracatConfig) :
    Except String (List CaracatConfig) :=
  let caracat := appConfigCaracat defIface raw
  match handleCaracatCheck caracat with
  | .ok _ => .ok caracat
  | .error e => .error e

/-! ## Dispatcher (`src/agent/handler.rs`) -/

/-- `MeasurementInfo` (`src/agent/gateway.rs`): measurement tracking
data carried in the agent-id header. -/
structure MeasurementInfo where
  measurement_id : String
  end_of_measurement : Bool
deriving DecidableEq

/-- `ProbesWithSource` (`src/agent/sender.rs`): one batch handed to a
send loop.  `source_ip` is the raw header string, or `""` for the
default-source behaviour. -/
structure ProbesWithSource where
  probes : List Probe
  source_ip : String
  measurement_info : Option MeasurementInfo
deriving DecidableEq

/-- The key under which a caracat instance is registered in the probe
senders map (`src/agent/handler.rs`). -/
def instanceKey (cfg : CaracatConfig) : String :=
  "instance_" ++ toString cfg.instance_id

/-- First-match lookup in the probe senders map, modelled as an
association list from instance key to an abstract queue id. -/
def lookupSender (m : List (String × Nat)) (k : String) : Option Nat :=
  match m with
  | [] => none
  | (k', q) :: rest => if k' = k then some q else lookupSender rest k

/-- Whether a config has any source prefix configured
(`caracat_cfg.src_ipv4_prefix.is_some() || ...is_some()`). -/
def hasPfx (cfg : CaracatConfig) : Bool :=
  cfg.src_ipv4_pfx.isSome || cfg.src_ipv6_pfx.isSome

/-- The first loop of `determine_target_sender`: scan the configs in
order for one with a prefix that validates the header source IP and
whose instance key is registered in the map. -/
def findPfxSender (P : IpParsers) (m : List (String × Nat)) (ip_str : String) :
    List CaracatConfig → Option Nat
  | [] => none
  | cfg :: rest =>
    if hasPfx cfg then
      match validate_ip_against_prefixes P ip_str cfg.src_ipv4_pfx cfg.src_ipv6_pfx with
      | .ok _ =>
        match lookupSender m (instanceKey cfg) with
        | some q => some q
        | none => findPfxSender P m ip_str rest
      | .error _ => findPfxSender P m ip_str rest
    else
      findPfxSender P m ip_str rest

/-- The second loop of `determine_target_sender`: scan the configs in
order for one with no prefixes whose instance key is registered. -/
def findDefaultSender (m : List (String × Nat)) :
    List CaracatConfig → Option Nat
  | [] => none
  | cfg :: rest =>
    if hasPfx cfg then
      findDefaultSender m rest
    else
      match lookupSender m (instanceKey cfg) with
      | some q => some q
      | none => findDefaultSender m rest

/-- `determine_target_sender` (`src/agent/handler.rs`, lines 21-85). -/
def determine_target_sender (P : IpParsers) (m : List (String × Nat))
    (caracat_configs : List CaracatConfig) (sender_ip_from_header : Option String) :
    Except String (Option Nat × Bool) :=
  match (match sender_ip_from_header with
         | some ip_str => findPfxSender P m ip_str caracat_configs
         | none => none) with
  | some q => .ok (some q, true)
  | none =>
    match findDefaultSender m caracat_configs with
    | some q => .ok (some q, false)
    | none =>
      match sender_ip_from_header with
      | some _ => .error "Source IP address is not within any configured prefix for this agent"
      | none => .error "No source IP address provided and no default configuration available"

/-- Whether an `Except` value is a success. -/
def exceptIsOk : Except String α → Bool
  | .ok _ => true
  | .error _ => false

/-! ### Inbound message handling (`src/agent/handler.rs`, main loop) -/

/-- A minimal model of `serde_json::Value`. -/
inductive Json where
  | str (s : String)
  | num (n : Int)
  | jbool (b : Bool)
  | null
  | arr (xs : List Json)
  | obj (fields : List (String × Json))

/-- `Value::get(key)`: field lookup, defined only on objects. -/
def Json.getField : Json → String → Option Json
  | .obj fields, key =>
    (fields.find? (fun f => f.1 = key)).map (fun f => f.2)
  | _, _ => none

/-- `Value::as_str`. -/
def Json.asStr : Json → Option String
  | .str s => some s
  | _ => none

/-- `Value::as_bool`. -/
def Json.asBool : Json → Option Bool
  | .jbool b => some b
  | _ => none

/-- One Kafka message header.  `value` models the raw bytes: `none` is
an absent value, `some none` bytes that are not UTF-8 or not JSON, and
`some (some j)` bytes parsing to the JSON value `j`. -/
structure KafkaHeader where
  key : String
  value : Option (Option Json)

/-- The state accumulated while scanning headers: intended-for-this-agent
flag, extracted `src_ip`, extracted measurement info. -/
structure HeaderScan where
  intended : Bool
  srcIp : Option String
  minfo : Option MeasurementInfo

/-- Processing of one header in the main loop of `handle`
(`src/agent/handler.rs`, lines 303-348): a header keyed by the agent id
marks the message as intended; if its value parses as JSON, `src_ip` is
(re)extracted, and measurement info is extracted only when both
`measurement_id` (string) and `end_of_measurement` (bool) are present. -/
def scanHeader (agentId : String) (st : HeaderScan) (h : KafkaHeader) : HeaderScan :=
  if h.key = agentId then
    match h.value with
    | some (some j) =>
      let srcIp := (j.getField "src_ip").bind Json.asStr
      let minfo :=
        match (j.getField "measurement_id").bind Json.asStr,
              (j.getField "end_of_measurement").bind Json.asBool with
        | some mid, some eom => some ⟨mid, eom⟩
        | _, _ => st.minfo
      { intended := true, srcIp := srcIp, minfo := minfo }
    | _ => { st with intended := true }
  else
    st

/-- Scan all headers of a message. -/
def scanHeaders (agentId : String) (headers : List KafkaHeader) : HeaderScan :=
  headers.foldl (scanHeader agentId) ⟨false, none, none⟩

/-- The dispatch decision taken after the payload has been decoded
(`src/agent/handler.rs`, lines 393-448): route via
`determine_target_sender`; on success enqueue the batch with the header
source IP only when the flag says so; on failure enqueue nothing. -/
def dispatchAfterDecode (P : IpParsers) (m : List (String × Nat))
    (configs : List CaracatConfig) (probes : List Probe)
    (sip : Option String) (minfo : Option MeasurementInfo) :
    Option (Nat × ProbesWithSource) :=
  match determine_target_sender P m configs sip with
  | .ok (some q, useSourceIp) =>
    if useSourceIp then
      some (q, { probes := probes, source_ip := sip.getD "", measurement_info := minfo })
    else
      some (q, { probes := probes, source_ip := "", measurement_info := minfo })
  | .ok (none, _) => none
  | .error _ => none

/-- The outcome of the main loop of `handle` for one inbound message:
the batch enqueued to a send queue (if any) and whether the message was
committed. -/
structure DispatchResult where
  enqueued : Option (Nat × ProbesWithSource)
  committed : Bool
deriving DecidableEq

/-- One iteration of the main loop of `handle`
(`src/agent/handler.rs`, lines 274-453) for a received message: missing
payload, foreign recipient, empty or undecodable probe list are all
acknowledged without dispatch; otherwise the batch is routed. -/
def dispatchMessage (P : IpParsers) (agentId : String)
    (m : List (String × Nat)) (configs : List CaracatConfig)
    (payload : Option (List ProbeWire)) (headers : List KafkaHeader) :
    DispatchResult :=
  match payload with
  | none => { enqueued := none, committed := true }
  | some wire =>
    let scan := scanHeaders agentId headers
    if !scan.intended && !configs.isEmpty then
      { enqueued := none, committed := true }
    else
      match deserialize_probes wire with
      | .ok [] => { enqueued := none, committed := true }
      | .ok probes =>
        { enqueued := dispatchAfterDecode P m configs probes scan.srcIp scan.minfo
          committed := true }
      | .error _ => { enqueued := none, committed := true }

/-! ## Receive loop (`src/agent/receiver.rs`)

A captured reply enters the loop already parsed; what the claims are
about is the forwarding decision.  Validation of a reply against an
instance id (`reply.is_valid(instance_id)`, caracat library code) is
abstracted as a boolean function of the instance id. -/

/-- What the receive loop does with one successfully parsed reply. -/
inductive ReplyAction where
  | forward
  | countInvalid
deriving DecidableEq

/-- `ReceiveLoop::is_valid_for_any_instance` (`src/agent/receiver.rs`):
the reply validates under at least one of the instance ids bound to the
interface. -/
def is_valid_for_any_instance (isValid : Nat → Bool) (valid_instance_ids : List Nat) : Bool :=
  valid_instance_ids.any (fun instance_id => isValid instance_id)

/-- The forwarding decision of the receive loop for one parsed reply
(`src/agent/receiver.rs`, lines 69-99): forward when the integrity
check is off, or when the reply validates for some bound instance;
otherwise count it as invalid. -/
def processCapturedReply (integrity_check : Bool) (valid_instance_ids : List Nat)
    (isValid : Nat → Bool) : ReplyAction :=
  if !integrity_check || (integrity_check && is_valid_for_any_instance isValid valid_instance_ids) then
    .forward
  else
    .countInvalid

/-! ## Send loop (`src/agent/sender.rs`) -/

/-- The per-loop metric counters touched by the per-probe part of the
send loop: `saimiris_sender_filtered_total` for the two TTL filters,
`saimiris_sender_sent_total` and `saimiris_sender_failed_total`. -/
structure SendCounters where
  filteredLow : Nat
  filteredHigh : Nat
  sent : Nat
  failed : Nat
deriving DecidableEq

/-- The initial counter state of a batch. -/
def SendCounters.zero : SendCounters :=
  ⟨0, 0, 0, 0⟩

/-- The `min_ttl` filter (`if let Some(ttl) = config.min_ttl`): drop
when the probe TTL is below the bound. -/
def minTtlFilter (min_ttl : Option Nat) (ttl : Nat) : Bool :=
  match min_ttl with
  | some bound => ttl < bound
  | none => false

/-- The `max_ttl` filter: drop when the probe TTL is above the bound. -/
def maxTtlFilter (max_ttl : Option Nat) (ttl : Nat) : Bool :=
  match max_ttl with
  | some bound => ttl > bound
  | none => false

/-- The emission fan-out for one surviving probe
(`for i in 0..config.packets`): each attempt consumes one outcome of
the oracle `sendOk` (indexed by a running attempt counter) and
increments `sent` or `failed`. -/
def emitPackets (sendOk : Nat → Bool) : Nat → Nat → SendCounters → SendCounters × Nat
  | 0, idx, c => (c, idx)
  | k + 1, idx, c =>
    let c' := if sendOk idx then { c with sent := c.sent + 1 }
              else { c with failed := c.failed + 1 }
    emitPackets sendOk k (idx + 1) c'

/-- Processing of one probe of a batch (`src/agent/sender.rs`,
lines 240-292): the `min_ttl` filter first, then the `max_ttl` filter,
then `packets` emission attempts. -/
def processProbe (min_ttl max_ttl : Option Nat) (packets : Nat) (sendOk : Nat → Bool)
    (st : SendCounters × Nat) (p : Probe) : SendCounters × Nat :=
  let (c, idx) := st
  if minTtlFilter min_ttl p.ttl then
    ({ c with filteredLow := c.filteredLow + 1 }, idx)
  else if maxTtlFilter max_ttl p.ttl then
    ({ c with filteredHigh := c.filteredHigh + 1 }, idx)
  else
    emitPackets sendOk packets idx c

/-- Processing of a whole probe batch by the send loop, returning the
counters and the total number of emission attempts. -/
def processBatch (min_ttl max_ttl : Option Nat) (packets : Nat) (sendOk : Nat → Bool)
    (probes : List Probe) : SendCounters × Nat :=
  probes.foldl (processProbe min_ttl max_ttl packets sendOk) (SendCounters.zero, 0)

/-- A probe surviving both TTL filters. -/
def survivesTtl (min_ttl max_ttl : Option Nat) (p : Probe) : Bool :=
  !minTtlFilter min_ttl p.ttl && !maxTtlFilter max_ttl p.ttl

/-! ### Measurement accounting (`src/agent/sender.rs`, lines 296-333) -/

/-- First-match lookup in the per-measurement counter map. -/
def alistLookup (l : List (String × Nat)) (k : String) : Option Nat :=
  match l with
  | [] => none
  | (k', v) :: rest => if k' = k then some v else alistLookup rest k

/-- `*map.entry(k).or_insert(0) += n`: add to the entry, creating it at
zero first when absent. -/
def alistBump (l : List (String × Nat)) (k : String) (n : Nat) : List (String × Nat) :=
  match l with
  | [] => [(k, n)]
  | (k', v) :: rest => if k' = k then (k', v + n) :: rest else (k', v) :: alistBump rest k n

/-- `map.remove(k)`: drop the entry for the key. -/
def alistErase (l : List (String × Nat)) (k : String) : List (String × Nat) :=
  match l with
  | [] => []
  | (k', v) :: rest => if k' = k then rest else (k', v) :: alistErase rest k

/-- The measurement-status block run after each batch
(`src/agent/sender.rs`, lines 296-333): when measurement info is
present, add the batch's sent count to the per-measurement counter;
when a gateway is configured (url and key present), report the running
total and, on `end_of_measurement`, remove the counter entry after the
report.  The returned report is `(measurement_id, sent_probes,
is_complete)` as POSTed to the gateway. -/
def measurementStep (gatewayConfigured : Bool) (minfo : Option MeasurementInfo)
    (sentCountBatch : Nat) (counters : List (String × Nat)) :
    List (String × Nat) × Option (String × Nat × Bool) :=
  match minfo with
  | none => (counters, none)
  | some mi =>
    let counters1 := alistBump counters mi.measurement_id sentCountBatch
    if gatewayConfigured then
      let total := (alistLookup counters1 mi.measurement_id).getD 0
      let counters2 :=
        if mi.end_of_measurement then alistErase counters1 mi.measurement_id else counters1
      (counters2, some (mi.measurement_id, total, mi.end_of_measurement))
    else
      (counters1, none)

/-- One fold step over a batch sequence: run the measurement-status
block and append its report (if any) to the report log. -/
def measurementFold (gatewayConfigured : Bool) (id : String)
    (st : List (String × Nat) × List (String × Nat × Bool)) (b : Nat × Bool) :
    List (String × Nat) × List (String × Nat × Bool) :=
  let (cs', rep) := measurementStep gatewayConfigured (some ⟨id, b.2⟩) b.1 st.1
  (cs', st.2 ++ rep.toList)

/-- Run the measurement-status block over a sequence of batches that all
carry the same `measurement_id`; each batch is `(sent count, end flag)`.
Returns the final counter map and the reports issued, in order. -/
def runSameMeasurement (gatewayConfigured : Bool) (id : String)
    (batches : List (Nat × Bool)) (counters : List (String × Nat)) :
    List (String × Nat) × List (String × Nat × Bool) :=
  batches.foldl (measurementFold gatewayConfigured id) (counters, [])

/-- The cumulative totals reported for per-batch sent counts, starting
from `acc`. -/
def cumSums (acc : Nat) : List Nat → List Nat
  | [] => []
  | s :: rest => (acc + s) :: cumSums (acc + s) rest

/-! ## Reply batching producer (`src/agent/producer.rs`)

The batching logic of `produce` (lines 80-128) operates on the strings
returned by `encode_reply`; the model works directly on those encoded
record strings.  Time is abstracted: one *round* is one pass of the
outer loop, and its fuel argument is the number of replies the inner
loop manages to pop from the queue before `out_batch_wait_time`
expires.  Theorems quantify over all fuels, so every interleaving of
arrivals and timer expiries is covered. -/

/-- `final_message.len()` when the buffer holds `recs` records, each
followed by one newline byte. -/
def bufLen (recs : List String) : Nat :=
  recs.foldl (fun n r => n + r.length + 1) 0

/-- The length of the published payload for a flushed buffer: the last
newline is popped before publishing. -/
def publishedLen (recs : List String) : Nat :=
  bufLen recs - 1

/-- The inner loop of `produce`: pop successive replies, appending each
to the buffer unless appending it (plus its newline) would push the
buffer past `message_max_bytes`; in that case it becomes the carry-over
and the round ends.  Returns the buffer, the carry-over and the
remaining queue. -/
def roundLoop (maxBytes : Nat) :
    List String → List String → Nat → List String × Option String × List String
  | acc, queue, 0 => (acc, none, queue)
  | acc, [], _ + 1 => (acc, none, [])
  | acc, r :: rest, k + 1 =>
    if bufLen acc + r.length + 1 > maxBytes then
      (acc, some r, rest)
    else
      roundLoop maxBytes (acc ++ [r]) rest k

/-- One round of the outer loop of `produce`: the pending carry-over
(if any) is appended to the fresh buffer first, without a size check,
then the inner loop runs. -/
def produceRound (maxBytes : Nat) (carry : Option String) (queue : List String) (k : Nat) :
    List String × Option String × List String :=
  roundLoop maxBytes carry.toList queue k

/-- Iterate rounds of `produce` with the given fuels; a round whose
buffer ends empty publishes nothing (`final_message.is_empty()`).
Returns the published messages in order, the final carry-over and the
remaining queue. -/
def produceAllSt (maxBytes : Nat) :
    Option String → List String → List Nat →
    List (List String) × Option String × List String
  | carry, queue, [] => ([], carry, queue)
  | carry, queue, k :: ks =>
    let (recs, carry', queue') := produceRound maxBytes carry queue k
    let (msgs, cf, qf) := produceAllSt maxBytes carry' queue' ks
    (if recs.isEmpty then msgs else recs :: msgs, cf, qf)

/-! ## Gateway client (`src/agent/gateway.rs`) -/

/-- `str::trim_end_matches('/')`: drop every trailing slash. -/
def trimTrailingSlashes (s : String) : String :=
  String.mk ((s.data.reverse.dropWhile (fun c => c == '/')).reverse)

/-- The URL the healthcheck loop issues its periodic existence GET to
(`src/agent/gateway.rs`, line 70). -/
def healthcheckAgentUrl (gateway_url agent_id : String) : String :=
  trimTrailingSlashes gateway_url ++ "/api/agent/" ++ agent_id

/-- The URL of the config POST (`src/agent/gateway.rs`, line 71). -/
def healthcheckConfigUrl (gateway_url agent_id : String) : String :=
  trimTrailingSlashes gateway_url ++ "/agent-api/agent/" ++ agent_id ++ "/config"

/-- The URL of the health POST (`src/agent/gateway.rs`, line 72). -/
def healthcheckHealthUrl (gateway_url agent_id : String) : String :=
  trimTrailingSlashes gateway_url ++ "/agent-api/agent/" ++ agent_id ++ "/health"

/-- The URL of the registration POST (`src/agent/gateway.rs`, line 73). -/
def registerUrl (gateway_url : String) : String :=
  trimTrailingSlashes gateway_url ++ "/agent-api/agent/register"

/-- Modelled from the spec: the endpoint the spec prescribes for the
existence check, the path `/agent-api/agent/` followed by the agent id
under the gateway base URL — the same `/agent-api` root as the other
endpoints. -/
def specAgentCheckUrl (gateway_url agent_id : String) : String :=
  trimTrailingSlashes gateway_url ++ "/agent-api/agent/" ++ agent_id

/-- The outcome of one HTTP request: a status code, or a transport
error. -/
inductive HttpOutcome where
  | status (code : Nat)
  | netError
deriving DecidableEq

/-- The effect of the existence-check response on the iteration
(`src/agent/gateway.rs`, lines 90-114): 2xx means registered, 404 sets
`needs_registration`, any other status also tries registration, and a
network error skips the iteration (`none`). -/
def needsRegistrationAfterCheck : HttpOutcome → Option Bool
  | .status code =>
    if 200 ≤ code ∧ code ≤ 299 then some false
    else if code = 404 then some true
    else some true
  | .netError => none

/-! ## Derived notions used by the theorem statements -/

/-- An instance that the first loop of `determine_target_sender` would
accept for the given header IP: it has a prefix configured and the IP
validates against it. -/
def matchesPfx (P : IpParsers) (ip_str : String) (cfg : CaracatConfig) : Bool :=
  hasPfx cfg &&
    exceptIsOk (validate_ip_against_prefixes P ip_str cfg.src_ipv4_pfx cfg.src_ipv6_pfx)

/-- A concrete instantiation of the external parsers, defined on the
inputs used by concrete witnesses: the address 10.0.0.5 and the network
10.0.0.0/8. -/
def ipParsersEx : IpParsers :=
  { parseIp := fun s => if s = "10.0.0.5" then some (.v4 0x0A000005) else none
    parseV4Net := fun s => if s = "10.0.0.0/8" then some ⟨0x0A000000, 8⟩ else none
    parseV6Net := fun _ => none }

/-- A caracat instance (id 1) configured with the source prefix
10.0.0.0/8. -/
def cfgPfxEx : CaracatConfig :=
  { CaracatConfig.defaultCfg with instance_id := 1, src_ipv4_pfx := some "10.0.0.0/8" }

/-- A well-formed probe whose v6 destination lies in the v4-mapped
range (::ffff:192.0.2.1). -/
def mappedV6Probe : Probe :=
  { dst_addr := .v6 [0, 0, 0, 0, 0, 0, 0, 0, 0, 0, 255, 255, 192, 0, 2, 1]
    src_port := 24000
    dst_port := 33434
    ttl := 64
    protocol := .udp }

/-! # Theorems -/

/-- C3 (confirmed): for a receive loop bound to an interface with
instance-id set `S`, when the integrity check is enabled a parsed reply
is forwarded iff it validates under at least one instance id in `S`,
a reply validating under no id in `S` is counted as received_invalid
(and not forwarded), and when the check is disabled every parsed reply
is forwarded. -/
theorem receiver_integrity_demux (integrity_check : Bool) (S : List Nat)
    (isValid : Nat → Bool) :
    (integrity_check = true →
      (processCapturedReply integrity_check S isValid = .forward ↔
        ∃ s ∈ S, isValid s = true))
    ∧ (integrity_check = true →
      (processCapturedReply integrity_check S isValid = .countInvalid ↔
        ∀ s ∈ S, isValid s = false))
    ∧ (integrity_check = false →
      processCapturedReply integrity_check S isValid = .forward) := by
  unfold processCapturedReply is_valid_for_any_instance
  cases integrity_check with
  | false => simp
  | true =>
    by_cases h : S.any (fun instance_id => isValid instance_id) = true
    · simp only [h]
      simp only [List.any_eq_true] at h
      simp [h]
    · simp only [Bool.not_eq_true] at h
      simp [h]
      simp only [List.any_eq_false, Bool.not_eq_true] at h
      exact h

/-- Witness for C3 at concrete inputs: with the check enabled, a reply
valid for instance 9 out of the bound set is forwarded, and a reply
valid for no bound instance is counted invalid. -/
theorem receiver_integrity_demux_witness :
    processCapturedReply true [7, 9] (fun s => s == 9) = .forward ∧
    processCapturedReply true [7, 9] (fun _ => false) = .countInvalid :=
  ⟨((receiver_integrity_demux true [7, 9] (fun s => s == 9)).1 rfl).mpr
      ⟨9, by decide, by decide⟩,
   ((receiver_integrity_demux true [7, 9] (fun _ => false)).2.1 rfl).mpr
      (by decide)⟩

/-- C9 (code_bug): the periodic existence check GETs the path
`/api/agent/` followed by the id, while register, config and health all
use the specified `/agent-api` root, so the code diverges from the
specified `/agent-api/agent/` check endpoint; a 404 response does set
`needs_registration` for the iteration. -/
theorem healthcheck_url_divergence :
    healthcheckAgentUrl "http://gw" "a1" = "http://gw/api/agent/a1" ∧
    specAgentCheckUrl "http://gw" "a1" = "http://gw/agent-api/agent/a1" ∧
    healthcheckAgentUrl "http://gw" "a1" ≠ specAgentCheckUrl "http://gw" "a1" ∧
    healthcheckConfigUrl "http://gw" "a1" = "http://gw/agent-api/agent/a1/config" ∧
    healthcheckHealthUrl "http://gw" "a1" = "http://gw/agent-api/agent/a1/health" ∧
    registerUrl "http://gw" = "http://gw/agent-api/agent/register" ∧
    needsRegistrationAfterCheck (.status 404) = some true := by
  refine ⟨by decide, by decide, by decide, by decide, by decide, by decide, by decide⟩

/-- C8 counterexample: starting the agent from a configuration whose
caracat list is empty does not fail; `app_config` substitutes one
default instance (normalized to the documented defaults), and the
startup guard accepts it. -/
theorem empty_caracat_starts :
    agentStartupCaracat "eth0" [] =
      .ok [{ batch_size := 100, instance_id := 0, dry_run := false, min_ttl := none,
             max_ttl := none, integrity_check := false, interface := "eth0",
             src_ipv4_pfx := none, src_ipv6_pfx := none, packets := 1,
             probing_rate := 100, rate_limiting_method := "auto" }] := by
  rfl

/-- C8 (corrected): the startup path never reports an empty instance
list as fatal, because `app_config` replaces an empty configured caracat
list with a single default instance before the `handle` guard runs; the
guard itself does reject an empty list, but it is unreachable through
`app_config`. -/
theorem empty_caracat_amended (defIface : String) (raw : List CaracatConfig) :
    (∃ cs, agentStartupCaracat defIface raw = .ok cs ∧ cs ≠ []) ∧
    appConfigCaracat defIface [] = [normalizeCaracat defIface CaracatConfig.defaultCfg] ∧
    handleCaracatCheck [] =
      .error "No Caracat configurations found. At least one Caracat instance must be configured." := by
  refine ⟨?_, rfl, rfl⟩
  have hne : (appConfigCaracat defIface raw).isEmpty = false := by
    unfold appConfigCaracat
    cases raw <;> simp
  refine ⟨appConfigCaracat defIface raw, ?_, ?_⟩
  · unfold agentStartupCaracat handleCaracatCheck
    simp only [hne]
    simp
  · intro hnil
    rw [hnil] at hne
    simp [List.isEmpty] at hne

/-- C2 counterexample: for the well-formed probe whose destination is
the v4-mapped v6 address ::ffff:192.0.2.1, decoding the encoding yields
the corresponding v4 destination, which is a different probe value, so
`deserialize_probes (serialize_probe p)` is not `[p]`. -/
theorem codec_round_trip_counterexample :
    deserialize_probes [serialize_probe mappedV6Probe] =
      .ok [{ dst_addr := .v4 192 0 2 1, src_port := 24000, dst_port := 33434,
             ttl := 64, protocol := .udp }] ∧
    ({ dst_addr := .v4 192 0 2 1, src_port := 24000, dst_port := 33434,
       ttl := 64, protocol := .udp } : Probe) ≠ mappedV6Probe := by
  exact ⟨rfl, by decide⟩

/-- C2 (corrected): decoding the encoding of a well-formed probe
returns exactly that probe whenever its destination is a v4 address or
a v6 address outside the v4-mapped range; a v4 destination is stored as
a v4-mapped v6 address on the wire and recovered as the original v4
address.  (For a v6 destination inside the v4-mapped range the decoder
returns the v4 form instead, as the counterexample shows.) -/
theorem codec_round_trip (p : Probe) (h : RoundTrippableAddr p.dst_addr) :
    deserialize_probes [serialize_probe p] = .ok [p] ∧
    (∀ a b c d, serialize_ip_addr (.v4 a b c d) =
      [0, 0, 0, 0, 0, 0, 0, 0, 0, 0, 255, 255, a, b, c, d]) := by
  refine ⟨?_, fun a b c d => rfl⟩
  obtain ⟨addr, sp, dp, t, proto⟩ := p
  simp only [RoundTrippableAddr] at h
  cases addr with
  | v4 a b c d =>
    cases proto <;>
      simp [deserialize_probes, serialize_probe, serialize_ip_addr, serialize_protocol,
        deserialize_single_probe, deserialize_ip_addr, toIpv4Mapped, deserialize_protocol]
  | v6 octets =>
    obtain ⟨hlen, hmap⟩ := h
    cases proto <;>
      simp [deserialize_probes, serialize_probe, serialize_ip_addr, serialize_protocol,
        deserialize_single_probe, deserialize_ip_addr, hlen, hmap, deserialize_protocol]

/-- Witness for C2 at a concrete v4-destination probe. -/
theorem codec_round_trip_witness :
    deserialize_probes [serialize_probe
      { dst_addr := .v4 192 0 2 1, src_port := 24000, dst_port := 33434,
        ttl := 5, protocol := .udp }] =
    .ok [{ dst_addr := .v4 192 0 2 1, src_port := 24000, dst_port := 33434,
           ttl := 5, protocol := .udp }] :=
  (codec_round_trip
    { dst_addr := .v4 192 0 2 1, src_port := 24000, dst_port := 33434,
      ttl := 5, protocol := .udp } (by simp [RoundTrippableAddr])).1

/-- Helper: the emission fan-out leaves the filter counters unchanged,
performs exactly `k` attempts (indices advance by `k`), and each attempt
lands in `sent` or `failed`. -/
theorem emitPackets_spec (sendOk : Nat → Bool) (k : Nat) :
    ∀ (idx : Nat) (c : SendCounters),
      (emitPackets sendOk k idx c).1.filteredLow = c.filteredLow ∧
      (emitPackets sendOk k idx c).1.filteredHigh = c.filteredHigh ∧
      (emitPackets sendOk k idx c).1.sent + (emitPackets sendOk k idx c).1.failed
        = c.sent + c.failed + k ∧
      (emitPackets sendOk k idx c).2 = idx + k := by
  induction k with
  | zero => intro idx c; simp [emitPackets]
  | succ n ih =>
    intro idx c
    cases h : sendOk idx
    · obtain ⟨h1, h2, h3, h4⟩ := ih (idx + 1) { c with failed := c.failed + 1 }
      simp only [emitPackets, h, Bool.false_eq_true, if_false]
      have h3' : (emitPackets sendOk n (idx + 1) { c with failed := c.failed + 1 }).1.sent
          + (emitPackets sendOk n (idx + 1) { c with failed := c.failed + 1 }).1.failed
          = c.sent + (c.failed + 1) + n := h3
      refine ⟨h1, h2, ?_, ?_⟩ <;> omega
    · obtain ⟨h1, h2, h3, h4⟩ := ih (idx + 1) { c with sent := c.sent + 1 }
      simp only [emitPackets, h, if_true]
      have h3' : (emitPackets sendOk n (idx + 1) { c with sent := c.sent + 1 }).1.sent
          + (emitPackets sendOk n (idx + 1) { c with sent := c.sent + 1 }).1.failed
          = (c.sent + 1) + c.failed + n := h3
      refine ⟨h1, h2, ?_, ?_⟩ <;> omega

/-- Helper: when every attempt succeeds, the fan-out adds exactly `k`
to `sent` and leaves `failed` unchanged. -/
theorem emitPackets_allOk (k : Nat) :
    ∀ (idx : Nat) (c : SendCounters),
      (emitPackets (fun _ => true) k idx c).1.sent = c.sent + k ∧
      (emitPackets (fun _ => true) k idx c).1.failed = c.failed := by
  induction k with
  | zero => intro idx c; simp [emitPackets]
  | succ n ih =>
    intro idx c
    obtain ⟨h1, h2⟩ := ih (idx + 1) { c with sent := c.sent + 1 }
    have e : emitPackets (fun _ => true) (n + 1) idx c
        = emitPackets (fun _ => true) n (idx + 1) { c with sent := c.sent + 1 } := by
      simp [emitPackets]
    rw [e]
    have h1' : (emitPackets (fun _ => true) n (idx + 1) { c with sent := c.sent + 1 }).1.sent
        = (c.sent + 1) + n := h1
    exact ⟨by omega, h2⟩

/-- Helper: counter accounting for a batch fold from an arbitrary
starting state. -/
theorem processBatch_go (min_ttl max_ttl : Option Nat) (packets : Nat)
    (sendOk : Nat → Bool) (l : List Probe) :
    ∀ (c : SendCounters) (idx : Nat),
      ((l.foldl (processProbe min_ttl max_ttl packets sendOk) (c, idx)).1.filteredLow
        = c.filteredLow + (l.filter (fun p => minTtlFilter min_ttl p.ttl)).length) ∧
      ((l.foldl (processProbe min_ttl max_ttl packets sendOk) (c, idx)).1.filteredHigh
        = c.filteredHigh + (l.filter (fun p =>
            !minTtlFilter min_ttl p.ttl && maxTtlFilter max_ttl p.ttl)).length) ∧
      ((l.foldl (processProbe min_ttl max_ttl packets sendOk) (c, idx)).1.sent
          + (l.foldl (processProbe min_ttl max_ttl packets sendOk) (c, idx)).1.failed
        = c.sent + c.failed
          + packets * (l.filter (survivesTtl min_ttl max_ttl)).length) := by
  induction l with
  | nil => intro c idx; simp
  | cons p rest ih =>
    intro c idx
    rw [List.foldl_cons]
    by_cases h1 : minTtlFilter min_ttl p.ttl = true
    · have hp : processProbe min_ttl max_ttl packets sendOk (c, idx) p
          = ({ c with filteredLow := c.filteredLow + 1 }, idx) := by
        simp [processProbe, h1]
      rw [hp]
      obtain ⟨g1, g2, g3⟩ := ih { c with filteredLow := c.filteredLow + 1 } idx
      have g1' : (rest.foldl (processProbe min_ttl max_ttl packets sendOk)
            ({ c with filteredLow := c.filteredLow + 1 }, idx)).1.filteredLow
          = (c.filteredLow + 1)
            + (rest.filter (fun p => minTtlFilter min_ttl p.ttl)).length := g1
      have hf1 : ((p :: rest).filter (fun p => minTtlFilter min_ttl p.ttl)).length
          = (rest.filter (fun p => minTtlFilter min_ttl p.ttl)).length + 1 := by
        simp [List.filter_cons, h1]
      have hf2 : (p :: rest).filter (fun p =>
            !minTtlFilter min_ttl p.ttl && maxTtlFilter max_ttl p.ttl)
          = rest.filter (fun p =>
            !minTtlFilter min_ttl p.ttl && maxTtlFilter max_ttl p.ttl) := by
        simp [List.filter_cons, h1]
      have hf3 : (p :: rest).filter (survivesTtl min_ttl max_ttl)
          = rest.filter (survivesTtl min_ttl max_ttl) := by
        simp [List.filter_cons, survivesTtl, h1]
      rw [hf1, hf2, hf3]
      exact ⟨by omega, g2, g3⟩
    · have h1' : minTtlFilter min_ttl p.ttl = false := by simpa using h1
      by_cases h2 : maxTtlFilter max_ttl p.ttl = true
      · have hp : processProbe min_ttl max_ttl packets sendOk (c, idx) p
            = ({ c with filteredHigh := c.filteredHigh + 1 }, idx) := by
          simp [processProbe, h1', h2]
        rw [hp]
        obtain ⟨g1, g2, g3⟩ := ih { c with filteredHigh := c.filteredHigh + 1 } idx
        have g2' : (rest.foldl (processProbe min_ttl max_ttl packets sendOk)
              ({ c with filteredHigh := c.filteredHigh + 1 }, idx)).1.filteredHigh
            = (c.filteredHigh + 1) + (rest.filter (fun p =>
              !minTtlFilter min_ttl p.ttl && maxTtlFilter max_ttl p.ttl)).length := g2
        have hf1 : ((p :: rest).filter (fun p => minTtlFilter min_ttl p.ttl)).length
            = (rest.filter (fun p => minTtlFilter min_ttl p.ttl)).length := by
          simp [List.filter_cons, h1']
        have hf2 : ((p :: rest).filter (fun p =>
              !minTtlFilter min_ttl p.ttl && maxTtlFilter max_ttl p.ttl)).length
            = (rest.filter (fun p =>
              !minTtlFilter min_ttl p.ttl && maxTtlFilter max_ttl p.ttl)).length + 1 := by
          simp [List.filter_cons, h1', h2]
        have hf3 : (p :: rest).filter (survivesTtl min_ttl max_ttl)
            = rest.filter (survivesTtl min_ttl max_ttl) := by
          simp [List.filter_cons, survivesTtl, h2]
        rw [hf1, hf2, hf3]
        exact ⟨g1, by omega, g3⟩
      · have h2' : maxTtlFilter max_ttl p.ttl = false := by simpa using h2
        have hp : processProbe min_ttl max_ttl packets sendOk (c, idx) p
            = emitPackets sendOk packets idx c := by
          simp [processProbe, h1', h2']
        rw [hp]
        obtain ⟨e1, e2, e3, _⟩ := emitPackets_spec sendOk packets idx c
        obtain ⟨g1, g2, g3⟩ :=
          ih (emitPackets sendOk packets idx c).1 (emitPackets sendOk packets idx c).2
        have g1' : (rest.foldl (processProbe min_ttl max_ttl packets sendOk)
              (emitPackets sendOk packets idx c)).1.filteredLow
            = (emitPackets sendOk packets idx c).1.filteredLow
              + (rest.filter (fun p => minTtlFilter min_ttl p.ttl)).length := g1
        have g2' : (rest.foldl (processProbe min_ttl max_ttl packets sendOk)
              (emitPackets sendOk packets idx c)).1.filteredHigh
            = (emitPackets sendOk packets idx c).1.filteredHigh
              + (rest.filter (fun p =>
                !minTtlFilter min_ttl p.ttl && maxTtlFilter max_ttl p.ttl)).length := g2
        have g3' : (rest.foldl (processProbe min_ttl max_ttl packets sendOk)
              (emitPackets sendOk packets idx c)).1.sent
            + (rest.foldl (processProbe min_ttl max_ttl packets sendOk)
              (emitPackets sendOk packets idx c)).1.failed
            = (emitPackets sendOk packets idx c).1.sent
              + (emitPackets sendOk packets idx c).1.failed
              + packets * (rest.filter (survivesTtl min_ttl max_ttl)).length := g3
        have hf1 : ((p :: rest).filter (fun p => minTtlFilter min_ttl p.ttl)).length
            = (rest.filter (fun p => minTtlFilter min_ttl p.ttl)).length := by
          simp [List.filter_cons, h1']
        have hf2 : ((p :: rest).filter (fun p =>
              !minTtlFilter min_ttl p.ttl && maxTtlFilter max_ttl p.ttl)).length
            = (rest.filter (fun p =>
              !minTtlFilter min_ttl p.ttl && maxTtlFilter max_ttl p.ttl)).length := by
          simp [List.filter_cons, h1', h2']
        have hf3 : ((p :: rest).filter (survivesTtl min_ttl max_ttl)).length
            = (rest.filter (survivesTtl min_ttl max_ttl)).length + 1 := by
          simp [List.filter_cons, survivesTtl, h1', h2']
        rw [hf1, hf2, hf3]
        refine ⟨by rw [g1', e1], by rw [g2', e2], ?_⟩
        rw [g3', e3]
        ring

/-- Helper: batch accounting when every emission attempt succeeds. -/
theorem processBatch_allOk_go (min_ttl max_ttl : Option Nat) (packets : Nat)
    (l : List Probe) :
    ∀ (c : SendCounters) (idx : Nat),
      ((l.foldl (processProbe min_ttl max_ttl packets (fun _ => true)) (c, idx)).1.sent
        = c.sent + packets * (l.filter (survivesTtl min_ttl max_ttl)).length) ∧
      ((l.foldl (processProbe min_ttl max_ttl packets (fun _ => true)) (c, idx)).1.failed
        = c.failed) := by
  induction l with
  | nil => intro c idx; simp
  | cons p rest ih =>
    intro c idx
    rw [List.foldl_cons]
    by_cases h1 : minTtlFilter min_ttl p.ttl = true
    · have hp : processProbe min_ttl max_ttl packets (fun _ => true) (c, idx) p
          = ({ c with filteredLow := c.filteredLow + 1 }, idx) := by
        simp [processProbe, h1]
      rw [hp]
      obtain ⟨g1, g2⟩ := ih { c with filteredLow := c.filteredLow + 1 } idx
      have hf3 : (p :: rest).filter (survivesTtl min_ttl max_ttl)
          = rest.filter (survivesTtl min_ttl max_ttl) := by
        simp [List.filter_cons, survivesTtl, h1]
      rw [hf3]
      exact ⟨g1, g2⟩
    · have h1' : minTtlFilter min_ttl p.ttl = false := by simpa using h1
      by_cases h2 : maxTtlFilter max_ttl p.ttl = true
      · have hp : processProbe min_ttl max_ttl packets (fun _ => true) (c, idx) p
            = ({ c with filteredHigh := c.filteredHigh + 1 }, idx) := by
          simp [processProbe, h1', h2]
        rw [hp]
        obtain ⟨g1, g2⟩ := ih { c with filteredHigh := c.filteredHigh + 1 } idx
        have hf3 : (p :: rest).filter (survivesTtl min_ttl max_ttl)
            = rest.filter (survivesTtl min_ttl max_ttl) := by
          simp [List.filter_cons, survivesTtl, h2]
        rw [hf3]
        exact ⟨g1, g2⟩
      · have h2' : maxTtlFilter max_ttl p.ttl = false := by simpa using h2
        have hp : processProbe min_ttl max_ttl packets (fun _ => true) (c, idx) p
            = emitPackets (fun _ => true) packets idx c := by
          simp [processProbe, h1', h2']
        rw [hp]
        obtain ⟨e1, e2⟩ := emitPackets_allOk packets idx c
        obtain ⟨g1, g2⟩ :=
          ih (emitPackets (fun _ => true) packets idx c).1
            (emitPackets (fun _ => true) packets idx c).2
        have g1' : (rest.foldl (processProbe min_ttl max_ttl packets (fun _ => true))
              (emitPackets (fun _ => true) packets idx c)).1.sent
            = (emitPackets (fun _ => true) packets idx c).1.sent
              + packets * (rest.filter (survivesTtl min_ttl max_ttl)).length := g1
        have g2' : (rest.foldl (processProbe min_ttl max_ttl packets (fun _ => true))
              (emitPackets (fun _ => true) packets idx c)).1.failed
            = (emitPackets (fun _ => true) packets idx c).1.failed := g2
        have hf3 : ((p :: rest).filter (survivesTtl min_ttl max_ttl)).length
            = (rest.filter (survivesTtl min_ttl max_ttl)).length + 1 := by
          simp [List.filter_cons, survivesTtl, h1', h2']
        rw [hf3]
        refine ⟨?_, by rw [g2', e2]⟩
        rw [g1', e1]
        ring

/-- C5 (confirmed): for every batch processed by a send loop, a probe
with ttl below a configured min_ttl is skipped and counted in
filtered_low_ttl; a probe above a configured max_ttl is skipped and
counted in filtered_high_ttl; every surviving probe gets `packets`
emission attempts, each one landing in `sent` (on success) or `failed`;
when every attempt succeeds, `sent` is `packets` times the number of
survivors; and the spec scenario (min_ttl=4, max_ttl=10, packets=1,
TTLs 1,4,10,255) yields filtered_low_ttl=1, filtered_high_ttl=1,
sent=2. -/
theorem sendloop_ttl_filtering (min_ttl max_ttl : Option Nat) (packets : Nat)
    (sendOk : Nat → Bool) (probes : List Probe) :
    ((processBatch min_ttl max_ttl packets sendOk probes).1.filteredLow
      = (probes.filter (fun p => minTtlFilter min_ttl p.ttl)).length)
    ∧ ((processBatch min_ttl max_ttl packets sendOk probes).1.filteredHigh
      = (probes.filter (fun p =>
          !minTtlFilter min_ttl p.ttl && maxTtlFilter max_ttl p.ttl)).length)
    ∧ ((processBatch min_ttl max_ttl packets sendOk probes).1.sent
        + (processBatch min_ttl max_ttl packets sendOk probes).1.failed
      = packets * (probes.filter (survivesTtl min_ttl max_ttl)).length)
    ∧ ((processBatch min_ttl max_ttl packets (fun _ => true) probes).1.sent
      = packets * (probes.filter (survivesTtl min_ttl max_ttl)).length)
    ∧ ((processBatch min_ttl max_ttl packets (fun _ => true) probes).1.failed = 0)
    ∧ (processBatch (some 4) (some 10) 1 (fun _ => true)
        [{ dst_addr := .v4 192 0 2 1, src_port := 24000, dst_port := 33434,
           ttl := 1, protocol := .udp },
         { dst_addr := .v4 192 0 2 1, src_port := 24000, dst_port := 33434,
           ttl := 4, protocol := .udp },
         { dst_addr := .v4 192 0 2 1, src_port := 24000, dst_port := 33434,
           ttl := 10, protocol := .udp },
         { dst_addr := .v4 192 0 2 1, src_port := 24000, dst_port := 33434,
           ttl := 255, protocol := .udp }]).1
      = { filteredLow := 1, filteredHigh := 1, sent := 2, failed := 0 } := by
  obtain ⟨g1, g2, g3⟩ :=
    processBatch_go min_ttl max_ttl packets sendOk probes SendCounters.zero 0
  obtain ⟨a1, a2⟩ :=
    processBatch_allOk_go min_ttl max_ttl packets probes SendCounters.zero 0
  have g1' : (processBatch min_ttl max_ttl packets sendOk probes).1.filteredLow
      = 0 + (probes.filter (fun p => minTtlFilter min_ttl p.ttl)).length := g1
  have g2' : (processBatch min_ttl max_ttl packets sendOk probes).1.filteredHigh
      = 0 + (probes.filter (fun p =>
          !minTtlFilter min_ttl p.ttl && maxTtlFilter max_ttl p.ttl)).length := g2
  have g3' : (processBatch min_ttl max_ttl packets sendOk probes).1.sent
        + (processBatch min_ttl max_ttl packets sendOk probes).1.failed
      = 0 + 0 + packets * (probes.filter (survivesTtl min_ttl max_ttl)).length := g3
  have a1' : (processBatch min_ttl max_ttl packets (fun _ => true) probes).1.sent
      = 0 + packets * (probes.filter (survivesTtl min_ttl max_ttl)).length := a1
  have a2' : (processBatch min_ttl max_ttl packets (fun _ => true) probes).1.failed
      = 0 := a2
  refine ⟨by omega, by omega, by omega, by omega, a2', by decide⟩

/-- Helper: adding to an absent key appends a fresh entry. -/
theorem alistBump_absent (l : List (String × Nat)) (k : String) (n : Nat)
    (h : alistLookup l k = none) : alistBump l k n = l ++ [(k, n)] := by
  induction l with
  | nil => rfl
  | cons e rest ih =>
    obtain ⟨k', v⟩ := e
    simp only [alistLookup] at h
    by_cases hk : k' = k
    · simp [hk] at h
    · simp only [alistBump, if_neg hk]
      simp only [if_neg hk] at h
      simp [ih h]

/-- Helper: adding to a key held by the trailing entry updates it. -/
theorem alistBump_append (l : List (String × Nat)) (k : String) (v n : Nat)
    (h : alistLookup l k = none) :
    alistBump (l ++ [(k, v)]) k n = l ++ [(k, v + n)] := by
  induction l with
  | nil => simp [alistBump]
  | cons e rest ih =>
    obtain ⟨k', w⟩ := e
    simp only [alistLookup] at h
    by_cases hk : k' = k
    · simp [hk] at h
    · simp only [if_neg hk] at h
      simp only [List.cons_append, alistBump, if_neg hk]
      simp [ih h]

/-- Helper: looking up the key of the trailing entry. -/
theorem alistLookup_append (l : List (String × Nat)) (k : String) (v : Nat)
    (h : alistLookup l k = none) :
    alistLookup (l ++ [(k, v)]) k = some v := by
  induction l with
  | nil => simp [alistLookup]
  | cons e rest ih =>
    obtain ⟨k', w⟩ := e
    simp only [alistLookup] at h
    by_cases hk : k' = k
    · simp [hk] at h
    · simp only [if_neg hk] at h
      simp only [List.cons_append, alistLookup, if_neg hk]
      exact ih h

/-- Helper: removing the key of the trailing entry restores the rest. -/
theorem alistErase_append (l : List (String × Nat)) (k : String) (v : Nat)
    (h : alistLookup l k = none) :
    alistErase (l ++ [(k, v)]) k = l := by
  induction l with
  | nil => simp [alistErase]
  | cons e rest ih =>
    obtain ⟨k', w⟩ := e
    simp only [alistLookup] at h
    by_cases hk : k' = k
    · simp [hk] at h
    · simp only [if_neg hk] at h
      simp only [List.cons_append, alistErase, if_neg hk]
      simp [ih h]

/-- Helper: one gateway-reporting step on a non-final batch from a state
whose trailing entry holds the running total. -/
theorem measurementFold_false (id : String) (s : Nat) (c0 : List (String × Nat))
    (acc : Nat) (rs : List (String × Nat × Bool)) (h : alistLookup c0 id = none) :
    measurementFold true id (c0 ++ [(id, acc)], rs) (s, false)
      = (c0 ++ [(id, acc + s)], rs ++ [(id, acc + s, false)]) := by
  unfold measurementFold measurementStep
  simp only [alistBump_append c0 id acc s h, alistLookup_append c0 id (acc + s) h]
  simp

/-- Helper: the non-final batches accumulate the running total in the
trailing entry and report the cumulative sums. -/
theorem runSame_false_go (id : String) (ss : List Nat) :
    ∀ (c0 : List (String × Nat)) (acc : Nat) (rs : List (String × Nat × Bool)),
      alistLookup c0 id = none →
      (ss.map (fun s => (s, false))).foldl (measurementFold true id)
          (c0 ++ [(id, acc)], rs)
        = (c0 ++ [(id, acc + ss.sum)],
           rs ++ (cumSums acc ss).map (fun t => (id, t, false))) := by
  induction ss with
  | nil => intro c0 acc rs h; simp [cumSums]
  | cons s rest ih =>
    intro c0 acc rs h
    simp only [List.map_cons, List.foldl_cons, measurementFold_false id s c0 acc rs h]
    rw [ih c0 (acc + s) _ h]
    simp [cumSums, Nat.add_assoc, List.append_assoc]

/-- C6 counterexample: with no gateway configured, processing a batch
marked end_of_measurement leaves the per-measurement counter entry in
place (and issues no report), so the entry is not removed after the
end-of-measurement batch as claimed. -/
theorem measurement_no_gateway_keeps_entry :
    runSameMeasurement false "M" [(1, true)] [] = ([("M", 1)], []) := rfl

/-- C6 (corrected): for a send loop with a gateway configured (url and
key present), over batches sharing one measurement id the per-
measurement counter accumulates the successful sends, every gateway
report carries the running cumulative total, the final report issued
with end_of_measurement carries the sum of all per-batch sends with
is_complete true, and the counter entry is removed after that batch —
the map returns to its initial state.  Without a gateway the code
updates the counter but never reports and never removes the entry, as
the counterexample shows. -/
theorem measurement_accounting (id : String) (ss : List Nat) (sLast : Nat)
    (counters0 : List (String × Nat)) (h : alistLookup counters0 id = none) :
    runSameMeasurement true id (ss.map (fun s => (s, false)) ++ [(sLast, true)]) counters0
      = (counters0,
         (cumSums 0 ss).map (fun t => (id, t, false)) ++ [(id, ss.sum + sLast, true)]) := by
  unfold runSameMeasurement
  rw [List.foldl_append]
  cases ss with
  | nil =>
    simp only [List.map_nil, List.foldl_nil, List.foldl_cons]
    have hstep : measurementFold true id (counters0, []) (sLast, true)
        = (counters0, [(id, sLast, true)]) := by
      unfold measurementFold measurementStep
      simp only [alistBump_absent counters0 id sLast h,
        alistLookup_append counters0 id sLast h,
        alistErase_append counters0 id sLast h]
      simp
    rw [hstep]
    simp [cumSums]
  | cons s rest =>
    simp only [List.map_cons, List.foldl_cons]
    have h0 : measurementFold true id (counters0, []) (s, false)
        = (counters0 ++ [(id, s)], [(id, s, false)]) := by
      unfold measurementFold measurementStep
      simp only [alistBump_absent counters0 id s h,
        alistLookup_append counters0 id s h]
      simp
    rw [h0, runSame_false_go id rest counters0 s [(id, s, false)] h]
    simp only [List.foldl_cons, List.foldl_nil]
    have hstep : measurementFold true id
        (counters0 ++ [(id, s + rest.sum)],
         [(id, s, false)] ++ (cumSums s rest).map (fun t => (id, t, false)))
        (sLast, true)
        = (counters0,
           ([(id, s, false)] ++ (cumSums s rest).map (fun t => (id, t, false)))
             ++ [(id, s + rest.sum + sLast, true)]) := by
      unfold measurementFold measurementStep
      simp only [alistBump_append counters0 id (s + rest.sum) sLast h,
        alistLookup_append counters0 id (s + rest.sum + sLast) h,
        alistErase_append counters0 id (s + rest.sum + sLast) h]
      simp
    rw [hstep]
    simp [cumSums]

/-- Witness for C6 at the spec scenario: three batches of 10 sends for
measurement M, the third marked end_of_measurement, from an empty
counter map. -/
theorem measurement_accounting_witness :
    alistLookup [] "M" = none ∧
    runSameMeasurement true "M" [(10, false), (10, false), (10, true)] []
      = ([], [("M", 10, false), ("M", 20, false), ("M", 30, true)]) :=
  ⟨rfl, measurement_accounting "M" [10, 10] 10 [] rfl⟩


/-- Helper: `bufLen` as a fold from an arbitrary start. -/
theorem bufLen_go (l : List String) :
    ∀ n : Nat, l.foldl (fun n r => n + r.length + 1) n = n + bufLen l := by
  induction l with
  | nil => intro n; simp [bufLen]
  | cons r rest ih =>
    intro n
    rw [List.foldl_cons, ih]
    conv_rhs => rw [show bufLen (r :: rest)
      = (r :: rest).foldl (fun n r => n + r.length + 1) 0 from rfl,
      List.foldl_cons, ih]
    omega

/-- Helper: appending one record adds its length plus the newline. -/
theorem bufLen_snoc (l : List String) (r : String) :
    bufLen (l ++ [r]) = bufLen l + r.length + 1 := by
  simp only [bufLen, List.foldl_append, List.foldl_cons, List.foldl_nil]

/-- Helper: unfolding `roundLoop` at fuel zero. -/
theorem roundLoop_zero (maxBytes : Nat) (acc queue : List String) :
    roundLoop maxBytes acc queue 0 = (acc, none, queue) := by
  cases queue <;> rfl

/-- Helper: unfolding `roundLoop` on an empty queue. -/
theorem roundLoop_nil (maxBytes : Nat) (acc : List String) (n : Nat) :
    roundLoop maxBytes acc [] (n + 1) = (acc, none, []) := rfl

/-- Helper: unfolding `roundLoop` on a non-empty queue. -/
theorem roundLoop_cons (maxBytes : Nat) (acc : List String) (r : String)
    (rest : List String) (n : Nat) :
    roundLoop maxBytes acc (r :: rest) (n + 1)
      = if bufLen acc + r.length + 1 > maxBytes then (acc, some r, rest)
        else roundLoop maxBytes (acc ++ [r]) rest n := rfl

/-- Helper: a round neither drops, duplicates nor reorders records:
buffer, carry-over and remaining queue together are exactly the initial
buffer and queue. -/
theorem roundLoop_conserve (maxBytes : Nat) :
    ∀ (k : Nat) (acc queue : List String),
      (roundLoop maxBytes acc queue k).1
          ++ (roundLoop maxBytes acc queue k).2.1.toList
          ++ (roundLoop maxBytes acc queue k).2.2
        = acc ++ queue := by
  intro k
  induction k with
  | zero => intro acc queue; simp [roundLoop_zero]
  | succ n ih =>
    intro acc queue
    cases queue with
    | nil => simp [roundLoop_nil]
    | cons r rest =>
      rw [roundLoop_cons]
      by_cases hover : bufLen acc + r.length + 1 > maxBytes
      · rw [if_pos hover]
        simp
      · rw [if_neg hover]
        rw [ih (acc ++ [r]) rest]
        simp

/-- Helper: the round buffer always extends the initial buffer. -/
theorem roundLoop_acc_grows (maxBytes : Nat) :
    ∀ (k : Nat) (acc queue : List String),
      ∃ t, (roundLoop maxBytes acc queue k).1 = acc ++ t := by
  intro k
  induction k with
  | zero => intro acc queue; exact ⟨[], by simp [roundLoop_zero]⟩
  | succ n ih =>
    intro acc queue
    cases queue with
    | nil => exact ⟨[], by simp [roundLoop_nil]⟩
    | cons r rest =>
      rw [roundLoop_cons]
      by_cases hover : bufLen acc + r.length + 1 > maxBytes
      · exact ⟨[], by rw [if_pos hover]; simp⟩
      · rw [if_neg hover]
        obtain ⟨t, ht⟩ := ih (acc ++ [r]) rest
        exact ⟨r :: t, by rw [ht]; simp⟩

/-- Helper: the guarded inner loop never grows the buffer past the
limit. -/
theorem roundLoop_size (maxBytes : Nat) :
    ∀ (k : Nat) (acc queue : List String),
      bufLen acc ≤ maxBytes →
      bufLen (roundLoop maxBytes acc queue k).1 ≤ maxBytes := by
  intro k
  induction k with
  | zero => intro acc queue h; simpa [roundLoop_zero] using h
  | succ n ih =>
    intro acc queue h
    cases queue with
    | nil => simpa [roundLoop_nil] using h
    | cons r rest =>
      rw [roundLoop_cons]
      by_cases hover : bufLen acc + r.length + 1 > maxBytes
      · rw [if_pos hover]
        simpa using h
      · rw [if_neg hover]
        exact ih (acc ++ [r]) rest (by rw [bufLen_snoc]; omega)

/-- Helper: the whole drain conserves records: the published messages,
the final carry-over and the unread queue are exactly the initial
carry-over and queue, in order. -/
theorem produceAllSt_conserve (maxBytes : Nat) (ks : List Nat) :
    ∀ (carry : Option String) (queue : List String),
      (produceAllSt maxBytes carry queue ks).1.flatten
          ++ (produceAllSt maxBytes carry queue ks).2.1.toList
          ++ (produceAllSt maxBytes carry queue ks).2.2
        = carry.toList ++ queue := by
  induction ks with
  | nil => intro carry queue; simp [produceAllSt]
  | cons k ks ih =>
    intro carry queue
    rcases hpr : produceRound maxBytes carry queue k with ⟨recs, carry', queue'⟩
    rcases hpa : produceAllSt maxBytes carry' queue' ks with ⟨msgs, cf, qf⟩
    have hcons := roundLoop_conserve maxBytes k carry.toList queue
    rw [show roundLoop maxBytes carry.toList queue k = produceRound maxBytes carry queue k
        from rfl, hpr] at hcons
    dsimp only at hcons
    have hihq := ih carry' queue'
    rw [hpa] at hihq
    dsimp only at hihq
    simp only [produceAllSt]
    rw [hpr, hpa]
    dsimp only
    by_cases hrec0 : recs.isEmpty = true
    · have hnil : recs = [] := by simpa [List.isEmpty_iff] using hrec0
      subst hnil
      rw [if_pos hrec0]
      rw [hihq]
      simpa using hcons
    · rw [if_neg hrec0]
      simp only [List.flatten_cons, List.append_assoc] at hcons hihq ⊢
      rw [hihq]
      exact hcons

/-- Helper: every published message respects the byte limit, provided
every record fits in a message by itself. -/
theorem produceAllSt_size (maxBytes : Nat) (ks : List Nat) :
    ∀ (carry : Option String) (queue : List String),
      (∀ r ∈ carry.toList ++ queue, r.length + 1 ≤ maxBytes) →
      ∀ msg ∈ (produceAllSt maxBytes carry queue ks).1, bufLen msg ≤ maxBytes := by
  induction ks with
  | nil => intro carry queue _ msg hmsg; simp [produceAllSt] at hmsg
  | cons k ks ih =>
    intro carry queue hall msg hmsg
    rcases hpr : produceRound maxBytes carry queue k with ⟨recs, carry', queue'⟩
    rcases hpa : produceAllSt maxBytes carry' queue' ks with ⟨msgs, cf, qf⟩
    have hcons := roundLoop_conserve maxBytes k carry.toList queue
    rw [show roundLoop maxBytes carry.toList queue k = produceRound maxBytes carry queue k
        from rfl, hpr] at hcons
    dsimp only at hcons
    have hall' : ∀ r ∈ carry'.toList ++ queue', r.length + 1 ≤ maxBytes := by
      intro r hr
      apply hall
      rw [← hcons]
      simp only [List.mem_append] at hr ⊢
      rcases hr with hr | hr
      · exact Or.inl (Or.inr hr)
      · exact Or.inr hr
    have hinit : bufLen carry.toList ≤ maxBytes := by
      cases carry with
      | none => simp [bufLen]
      | some m =>
        have hm := hall m (by simp)
        simp only [Option.toList, bufLen, List.foldl_cons, List.foldl_nil]
        omega
    have hrecs : bufLen recs ≤ maxBytes := by
      have hsz := roundLoop_size maxBytes k carry.toList queue hinit
      rw [show roundLoop maxBytes carry.toList queue k = produceRound maxBytes carry queue k
          from rfl, hpr] at hsz
      exact hsz
    have hmem := ih carry' queue' hall'
    rw [hpa] at hmem
    simp only [produceAllSt] at hmsg
    rw [hpr, hpa] at hmsg
    dsimp only at hmsg
    by_cases hrec0 : recs.isEmpty = true
    · rw [if_pos hrec0] at hmsg
      exact hmem msg hmsg
    · rw [if_neg hrec0] at hmsg
      rcases List.mem_cons.mp hmsg with rfl | hmsg'
      · exact hrecs
      · exact hmem msg hmsg'

/-- Helper: a round that starts with a carried-over record publishes it
as the first record of its message. -/
theorem produceRound_carry_first (maxBytes : Nat) (m : String)
    (queue : List String) (k : Nat) :
    (produceRound maxBytes (some m) queue k).1 ≠ [] ∧
    (produceRound maxBytes (some m) queue k).1.head? = some m := by
  obtain ⟨t, ht⟩ := roundLoop_acc_grows maxBytes k [m] queue
  have ht' : (produceRound maxBytes (some m) queue k).1 = m :: t := ht
  rw [ht']
  simp

/-- C4 counterexample: with `message_max_bytes = 4` and a single 5-byte
encoded reply, the reply is first carried over (it does not fit), and
the next round publishes it anyway as a lone record: the published
message has 5 bytes, exceeding the limit.  The claim that no published
message exceeds `message_max_bytes` therefore fails when a single
record is larger than the limit. -/
theorem producer_oversize_counterexample :
    (produceAllSt 4 none ["aaaaa"] [1, 1]).1 = [["aaaaa"]] ∧
    publishedLen ["aaaaa"] = 5 ∧
    ¬(∀ msg ∈ (produceAllSt 4 none ["aaaaa"] [1, 1]).1, publishedLen msg ≤ 4) :=
  ⟨rfl, rfl, fun hcontra => absurd (hcontra ["aaaaa"] (by decide)) (by decide)⟩

/-- C4 (corrected): over any interleaving of arrivals and timer flushes,
provided every encoded reply is below `message_max_bytes` (record plus
newline fits), no published outbound message exceeds
`message_max_bytes`; no record is split (messages are lists of whole
records by construction); the published messages, pending carry-over
(at most one, by type) and unread queue are exactly the drained replies
in order — so when the drain completes, every reply appears in exactly
one message; and a carried-over reply is always the first record of the
next published message.  Without the per-record bound the size claim
fails, as the counterexample shows. -/
theorem producer_batching (maxBytes : Nat) (queue : List String) (ks : List Nat)
    (h : ∀ r ∈ queue, r.length + 1 ≤ maxBytes) :
    (∀ msg ∈ (produceAllSt maxBytes none queue ks).1, publishedLen msg ≤ maxBytes) ∧
    ((produceAllSt maxBytes none queue ks).1.flatten
        ++ (produceAllSt maxBytes none queue ks).2.1.toList
        ++ (produceAllSt maxBytes none queue ks).2.2
      = queue) ∧
    (∀ (m : String) (q : List String) (k : Nat),
      (produceRound maxBytes (some m) q k).1 ≠ [] ∧
      (produceRound maxBytes (some m) q k).1.head? = some m) := by
  refine ⟨?_, ?_, fun m q k => produceRound_carry_first maxBytes m q k⟩
  · intro msg hmsg
    have hb := produceAllSt_size maxBytes ks none queue (by simpa using h) msg hmsg
    simp only [publishedLen]
    omega
  · have hc := produceAllSt_conserve maxBytes ks none queue
    simpa using hc

/-- Witness for C4 at concrete inputs: two records of 3 and 4 bytes
with an 8-byte limit are published whole. -/
theorem producer_batching_witness :
    (∀ r ∈ ["aaa", "bbbb"], String.length r + 1 ≤ 8) ∧
    ((∀ msg ∈ (produceAllSt 8 none ["aaa", "bbbb"] [5]).1, publishedLen msg ≤ 8) ∧
      ((produceAllSt 8 none ["aaa", "bbbb"] [5]).1.flatten
          ++ (produceAllSt 8 none ["aaa", "bbbb"] [5]).2.1.toList
          ++ (produceAllSt 8 none ["aaa", "bbbb"] [5]).2.2
        = ["aaa", "bbbb"])) := by
  refine ⟨by decide, ?_⟩
  have hthm := producer_batching 8 ["aaa", "bbbb"] [5] (by decide)
  exact ⟨hthm.1, hthm.2.1⟩


/-- Helper: when every configured instance is registered in the probe
senders map, the first loop of `determine_target_sender` returns the
queue of the first config whose prefix accepts the header IP. -/
theorem findPfxSender_eq (P : IpParsers) (m : List (String × Nat)) (ip_str : String) :
    ∀ l : List CaracatConfig,
      (∀ cfg ∈ l, (lookupSender m (instanceKey cfg)).isSome = true) →
      findPfxSender P m ip_str l
        = (l.find? (matchesPfx P ip_str)).bind
            (fun cfg => lookupSender m (instanceKey cfg)) := by
  intro l
  induction l with
  | nil => intro _; rfl
  | cons cfg rest ih =>
    intro hmap
    have hrest : ∀ c ∈ rest, (lookupSender m (instanceKey c)).isSome = true :=
      fun c hc => hmap c (List.mem_cons_of_mem _ hc)
    by_cases hp : hasPfx cfg = true
    · cases hv : validate_ip_against_prefixes P ip_str cfg.src_ipv4_pfx cfg.src_ipv6_pfx with
      | ok u =>
        have hm : matchesPfx P ip_str cfg = true := by
          simp [matchesPfx, hp, exceptIsOk, hv]
        rw [List.find?_cons_of_pos _ hm]
        obtain ⟨q, hq⟩ := Option.isSome_iff_exists.mp (hmap cfg (List.mem_cons_self _ _))
        simp [findPfxSender, hp, hv, hq]
      | error e =>
        have hm : matchesPfx P ip_str cfg = false := by
          simp [matchesPfx, exceptIsOk, hv]
        rw [List.find?_cons_of_neg _ (by simp [hm])]
        simp only [findPfxSender, hp, if_true, hv]
        exact ih hrest
    · have hp' : hasPfx cfg = false := by simpa using hp
      have hm : matchesPfx P ip_str cfg = false := by simp [matchesPfx, hp']
      rw [List.find?_cons_of_neg _ (by simp [hm])]
      simp only [findPfxSender, hp', Bool.false_eq_true, if_false]
      exact ih hrest

/-- Helper: when every configured instance is registered, the default
loop returns the queue of the first config with no prefixes. -/
theorem findDefaultSender_eq (m : List (String × Nat)) :
    ∀ l : List CaracatConfig,
      (∀ cfg ∈ l, (lookupSender m (instanceKey cfg)).isSome = true) →
      findDefaultSender m l
        = (l.find? (fun c => !hasPfx c)).bind
            (fun cfg => lookupSender m (instanceKey cfg)) := by
  intro l
  induction l with
  | nil => intro _; rfl
  | cons cfg rest ih =>
    intro hmap
    have hrest : ∀ c ∈ rest, (lookupSender m (instanceKey c)).isSome = true :=
      fun c hc => hmap c (List.mem_cons_of_mem _ hc)
    by_cases hp : hasPfx cfg = true
    · rw [List.find?_cons_of_neg _ (by simp [hp])]
      simp only [findDefaultSender, hp, if_true]
      exact ih hrest
    · have hp' : hasPfx cfg = false := by simpa using hp
      rw [List.find?_cons_of_pos _ (by simp [hp'])]
      obtain ⟨q, hq⟩ := Option.isSome_iff_exists.mp (hmap cfg (List.mem_cons_self _ _))
      simp [findDefaultSender, hp', hq]

/-- C1 counterexample: with the instance list holding one config whose
IPv4 prefix 10.0.0.0/8 contains the header IP 10.0.0.5 (so an instance
whose prefix contains `src_ip` exists), but a routing table with no
entry for that instance, `determine_target_sender` returns an error
instead of that instance's queue with use_source_ip=true. -/
theorem dispatcher_selection_counterexample :
    matchesPfx ipParsersEx "10.0.0.5" cfgPfxEx = true ∧
    exceptIsOk (determine_target_sender ipParsersEx [] [cfgPfxEx] (some "10.0.0.5"))
      = false := ⟨rfl, rfl⟩

/-- C1 (corrected): provided the routing table has an entry for every
configured instance (as the registry built at startup does), the
dispatcher returns the queue of the first instance whose configured
IPv4 or IPv6 prefix validates `src_ip` with use_source_ip=true when one
exists; otherwise the queue of the first instance with no prefixes with
use_source_ip=false; and when neither exists it errors, in which case
the dispatch step enqueues the batch to no send queue.  For routing
tables missing an entry, the code skips the unregistered instance, as
the counterexample shows. -/
theorem dispatcher_selection (P : IpParsers) (m : List (String × Nat))
    (configs : List CaracatConfig) (sip : Option String)
    (hmap : ∀ cfg ∈ configs, (lookupSender m (instanceKey cfg)).isSome = true) :
    (∀ s cfg, sip = some s →
      configs.find? (matchesPfx P s) = some cfg →
      determine_target_sender P m configs sip
        = .ok (lookupSender m (instanceKey cfg), true)) ∧
    (∀ cfg, (∀ s, sip = some s → configs.find? (matchesPfx P s) = none) →
      configs.find? (fun c => !hasPfx c) = some cfg →
      determine_target_sender P m configs sip
        = .ok (lookupSender m (instanceKey cfg), false)) ∧
    ((∀ s, sip = some s → configs.find? (matchesPfx P s) = none) →
      configs.find? (fun c => !hasPfx c) = none →
      exceptIsOk (determine_target_sender P m configs sip) = false ∧
      (∀ (probes : List Probe) (minfo : Option MeasurementInfo),
        dispatchAfterDecode P m configs probes sip minfo = none)) := by
  refine ⟨?_, ?_, ?_⟩
  · intro s cfg hs hfind
    subst hs
    obtain ⟨q, hq⟩ := Option.isSome_iff_exists.mp
      (hmap cfg (List.mem_of_find?_eq_some hfind))
    have hfp : findPfxSender P m s configs = some q := by
      rw [findPfxSender_eq P m s configs hmap, hfind]
      simp [hq]
    simp [determine_target_sender, hfp, hq]
  · intro cfg hnone hdef
    obtain ⟨q, hq⟩ := Option.isSome_iff_exists.mp
      (hmap cfg (List.mem_of_find?_eq_some hdef))
    have hfd : findDefaultSender m configs = some q := by
      rw [findDefaultSender_eq m configs hmap, hdef]
      simp [hq]
    cases sip with
    | none => simp [determine_target_sender, hfd, hq]
    | some s =>
      have hfp : findPfxSender P m s configs = none := by
        rw [findPfxSender_eq P m s configs hmap, hnone s rfl]
        rfl
      simp [determine_target_sender, hfp, hfd, hq]
  · intro hnone hdef
    have hfd : findDefaultSender m configs = none := by
      rw [findDefaultSender_eq m configs hmap, hdef]
      rfl
    have hres : exceptIsOk (determine_target_sender P m configs sip) = false := by
      cases sip with
      | none => simp [determine_target_sender, hfd, exceptIsOk]
      | some s =>
        have hfp : findPfxSender P m s configs = none := by
          rw [findPfxSender_eq P m s configs hmap, hnone s rfl]
          rfl
        simp [determine_target_sender, hfp, hfd, exceptIsOk]
    refine ⟨hres, ?_⟩
    intro probes minfo
    unfold dispatchAfterDecode
    cases hdet : determine_target_sender P m configs sip with
    | ok v =>
      rw [hdet] at hres
      simp [exceptIsOk] at hres
    | error e => rfl

/-- Witness for C1: with the instance registered under key instance_1
and queue 7, the batch for source IP 10.0.0.5 goes to queue 7 with
use_source_ip=true. -/
theorem dispatcher_selection_witness :
    determine_target_sender ipParsersEx [("instance_1", 7)] [cfgPfxEx] (some "10.0.0.5")
      = .ok (some 7, true) := by
  have h := (dispatcher_selection ipParsersEx [("instance_1", 7)] [cfgPfxEx]
    (some "10.0.0.5") (by decide)).1 "10.0.0.5" cfgPfxEx rfl (by decide)
  rw [h]
  rfl


/-- Helper: headers not keyed by the agent id leave the scan state
unchanged. -/
theorem scanHeaders_foreign (agentId : String) :
    ∀ (headers : List KafkaHeader) (st : HeaderScan),
      (∀ hd ∈ headers, hd.key ≠ agentId) →
      headers.foldl (scanHeader agentId) st = st := by
  intro headers
  induction headers with
  | nil => intro st _; rfl
  | cons hd rest ih =>
    intro st hall
    have hk : hd.key ≠ agentId := hall hd (List.mem_cons_self _ _)
    simp only [List.foldl_cons, scanHeader, if_neg hk]
    exact ih st (fun x hx => hall x (List.mem_cons_of_mem _ hx))

/-- C7 (confirmed): for every inbound message whose header set does not
include the local agent id, the dispatcher forwards no probes to any
send queue and the message is committed, so the stream advances. -/
theorem recipient_filter (P : IpParsers) (agentId : String)
    (m : List (String × Nat)) (configs : List CaracatConfig)
    (payload : Option (List ProbeWire)) (headers : List KafkaHeader)
    (h : ∀ hd ∈ headers, hd.key ≠ agentId) :
    (dispatchMessage P agentId m configs payload headers).enqueued = none ∧
    (dispatchMessage P agentId m configs payload headers).committed = true := by
  cases payload with
  | none => exact ⟨rfl, rfl⟩
  | some wire =>
    have hscan : scanHeaders agentId headers = ⟨false, none, none⟩ :=
      scanHeaders_foreign agentId headers ⟨false, none, none⟩ h
    simp only [dispatchMessage, hscan]
    cases hc : configs.isEmpty with
    | true =>
      have hcfg : configs = [] := List.isEmpty_iff.mp hc
      subst hcfg
      simp only [List.isEmpty_nil, Bool.not_true, Bool.and_false, Bool.false_eq_true,
        if_false]
      cases hd : deserialize_probes wire with
      | ok ps =>
        cases ps with
        | nil => exact ⟨rfl, rfl⟩
        | cons p rest => exact ⟨rfl, rfl⟩
      | error e => exact ⟨rfl, rfl⟩
    | false =>
      simp only [hc, Bool.not_false, Bool.and_true, Bool.not_true]
      exact ⟨rfl, rfl⟩

/-- Witness for C7 at a concrete message: a header keyed for agent a2
on an agent with id a1 is discarded and committed. -/
theorem recipient_filter_witness :
    (dispatchMessage ipParsersEx "a1" [("instance_1", 7)] [cfgPfxEx]
        (some [serialize_probe mappedV6Probe]) [⟨"a2", none⟩]).enqueued = none ∧
    (dispatchMessage ipParsersEx "a1" [("instance_1", 7)] [cfgPfxEx]
        (some [serialize_probe mappedV6Probe]) [⟨"a2", none⟩]).committed = true :=
  recipient_filter ipParsersEx "a1" [("instance_1", 7)] [cfgPfxEx]
    (some [serialize_probe mappedV6Probe]) [⟨"a2", none⟩]
    (by intro hd hhd
        simp only [List.mem_singleton] at hhd
        subst hhd
        decide)

/-- C10 (confirmed): when the dispatcher parses the agent-id-keyed
header value as JSON, `src_ip` is extracted on its own, while
measurement info is attached only when both `measurement_id` (string)
and `end_of_measurement` (bool) are present in the JSON object; if
either is missing, the batch has no measurement info and the
measurement-status block neither counts nor reports for it. -/
theorem header_measurement_extraction (agentId : String) (j : Json)
    (gw : Bool) (n : Nat) (counters : List (String × Nat)) :
    (scanHeaders agentId [⟨agentId, some (some j)⟩]).intended = true ∧
    (scanHeaders agentId [⟨agentId, some (some j)⟩]).srcIp
      = (j.getField "src_ip").bind Json.asStr ∧
    (∀ mid eom,
      (j.getField "measurement_id").bind Json.asStr = some mid →
      (j.getField "end_of_measurement").bind Json.asBool = some eom →
      (scanHeaders agentId [⟨agentId, some (some j)⟩]).minfo = some ⟨mid, eom⟩) ∧
    (((j.getField "measurement_id").bind Json.asStr = none ∨
      (j.getField "end_of_measurement").bind Json.asBool = none) →
      (scanHeaders agentId [⟨agentId, some (some j)⟩]).minfo = none ∧
      measurementStep gw (scanHeaders agentId [⟨agentId, some (some j)⟩]).minfo n counters
        = (counters, none)) := by
  have hscan : scanHeaders agentId [⟨agentId, some (some j)⟩]
      = ⟨true, (j.getField "src_ip").bind Json.asStr,
          match (j.getField "measurement_id").bind Json.asStr,
                (j.getField "end_of_measurement").bind Json.asBool with
          | some mid, some eom => some ⟨mid, eom⟩
          | _, _ => none⟩ := by
    simp [scanHeaders, scanHeader]
  rw [hscan]
  refine ⟨rfl, rfl, ?_, ?_⟩
  · intro mid eom hmid heom
    simp only [hmid, heom]
  · intro hmiss
    cases hmid : (j.getField "measurement_id").bind Json.asStr with
    | none =>
      simp only [hmid]
      exact ⟨trivial, rfl⟩
    | some mid =>
      cases heom : (j.getField "end_of_measurement").bind Json.asBool with
      | none =>
        simp only [hmid, heom]
        exact ⟨trivial, rfl⟩
      | some eom =>
        rcases hmiss with hmiss | hmiss
        · rw [hmid] at hmiss; cases hmiss
        · rw [heom] at hmiss; cases hmiss

/-- Witness for C10 at a concrete header: a JSON value carrying src_ip
and measurement_id but no end_of_measurement yields no measurement
info, and the measurement-status block is a no-op for the batch. -/
theorem header_measurement_extraction_witness :
    (scanHeaders "a1" [⟨"a1", some (some (Json.obj
        [("src_ip", Json.str "10.0.0.1"), ("measurement_id", Json.str "m1")]))⟩]).minfo
      = none ∧
    measurementStep true (scanHeaders "a1" [⟨"a1", some (some (Json.obj
        [("src_ip", Json.str "10.0.0.1"), ("measurement_id", Json.str "m1")]))⟩]).minfo
      3 [("x", 2)] = ([("x", 2)], none) :=
  (header_measurement_extraction "a1"
    (Json.obj [("src_ip", Json.str "10.0.0.1"), ("measurement_id", Json.str "m1")])
    true 3 [("x", 2)]).2.2.2 (Or.inr rfl)

end Saimiris
